import Mathlib

/-!
Verification of the salon LINE-bot conversation core against its
natural-language specification.

The development shallowly embeds the three modules the properties below
are about:

* `api/reservation_flow.py` — the per-user reservation dialogue state
  machine (`ReservationFlow`): intent detection, step handlers and the
  public entry point `get_response`;
* `api/rag_faq.py` — the keyword-overlap FAQ search (`RAGFAQ.search`)
  and KB-fact extraction (`RAGFAQ._extract_kb_facts`);
* `api/chatgpt_faq.py` — the generation gate (`ChatGPTFAQ.get_response`)
  with its sensitive-topic refusal (`_is_dangerous_query`).

Modelling conventions:

* Python strings are Lean `String`s; `str.lower()` is modelled as
  ASCII lowercasing (the identity on all Japanese characters involved);
  `a in b` (substring) is `strContains b a`.
* Calendar dates are absolute day numbers counted from a Monday epoch,
  so `d % 7` is exactly Python's `date.weekday()` (Monday = 0,
  Saturday = 5, Sunday = 6); `datetime.now()` becomes the explicit
  `Env.today` parameter and the sample slot table `Env.slots`.
* Clock times are `(hour, minute)` pairs; the Python code compares the
  zero-padded strings `f"{hour:02d}:{minute:02d}"`, which is injective
  on the two-digit values the regex can produce, so pair equality is
  the same test.
* The mutable `self.user_states` dict is an association list `Store`
  threaded through the handlers; scores in the FAQ search are exact
  rationals (`ℚ`) standing for the Python floats.
-/

namespace Salon

/-! ## String primitives -/

/-- ASCII lowercasing of one character; identity elsewhere.  Python's
`str.lower()` agrees with this on every string occurring in the bot. -/
def lowerChar (c : Char) : Char :=
  if 'A' ≤ c ∧ c ≤ 'Z' then Char.ofNat (c.toNat + 32) else c

/-- Python `message.lower()`. -/
def strLower (s : String) : String := String.mk (s.toList.map lowerChar)

/-- `needle` is a prefix of `hay` (character lists). -/
def startsWithL : List Char → List Char → Bool
  | [], _ => true
  | _ :: _, [] => false
  | a :: as, b :: bs => a == b && startsWithL as bs

/-- `needle` occurs somewhere in `hay` (character lists). -/
def containsL (needle : List Char) : List Char → Bool
  | [] => startsWithL needle []
  | b :: bs => startsWithL needle (b :: bs) || containsL needle bs

/-- Python's substring test `needle in hay`. -/
def strContains (hay needle : String) : Bool :=
  containsL needle.toList hay.toList

/-! ## Reservation flow: data model (`reservation_flow.py`) -/

/-- The `step` field of a user's reservation state. -/
inductive Step where
  | start
  | service_selection
  | staff_selection
  | date_selection
  | time_selection
  | confirmation
deriving DecidableEq, Repr

/-- The `data` dict accumulated across the dialogue
(`service`, `staff`, `date`, `time`, each absent until filled). -/
structure CollectedData where
  service : Option String
  staff   : Option String
  date    : Option Nat
  time    : Option (Nat × Nat)
deriving DecidableEq, Repr

/-- `{"step": ..., "data": ...}` — one user's entry in `self.user_states`. -/
structure UserState where
  step : Step
  data : CollectedData
deriving DecidableEq, Repr

def emptyData : CollectedData := ⟨none, none, none, none⟩

/-- `self.user_states`, as an association list keyed by user id. -/
abbrev Store := List (String × UserState)

def storeFind : Store → String → Option UserState
  | [], _ => none
  | (k, v) :: rest, u => if k = u then some v else storeFind rest u

def storeSet : Store → String → UserState → Store
  | [], u, v => [(u, v)]
  | (k, w) :: rest, u, v =>
    if k = u then (u, v) :: rest else (k, w) :: storeSet rest u v

def storeDel : Store → String → Store
  | [], _ => []
  | (k, w) :: rest, u =>
    if k = u then storeDel rest u else (k, w) :: storeDel rest u

/-- One availability slot of `self.available_slots`. -/
structure Slot where
  date : Nat
  time : Nat × Nat
  available : Bool
deriving DecidableEq, Repr

/-- `_generate_sample_slots`: the next 7 days from `today`, skipping
Tuesdays (`weekday == 1`), hours 10–18 minus the 12 o'clock break. -/
def genSlots (today : Nat) : List Slot :=
  List.flatten ((List.range 7).map (fun day =>
    if (today + day) % 7 = 1 then []
    else ((List.range' 10 9).filter (fun h => h ≠ 12)).map
      (fun h => ⟨today + day, (h, 0), true⟩)))

/-- The ambient clock and slot table (`datetime.now()` and
`self.available_slots`), passed explicitly. -/
structure Env where
  today : Nat
  slots : List Slot
deriving DecidableEq, Repr

/-- The environment a freshly constructed `ReservationFlow` sees when
the process starts on day `today`. -/
def mkEnv (today : Nat) : Env := ⟨today, genSlots today⟩

/-! ## Reservation flow: fixed tables -/

def reservationKeywords : List String :=
  ["予約", "予約したい", "予約お願い", "予約できますか",
   "空いてる", "空き", "時間", "いつ", "可能"]

def serviceKeywords : List String :=
  ["カット", "カラー", "パーマ", "トリートメント"]

def staffKeywords : List String :=
  ["田中", "佐藤", "山田", "未指定", "担当者", "美容師"]

/-- `cancel_keywords` inside `detect_intent` (intent classification). -/
def cancelIntentKeywords : List String :=
  ["キャンセル", "取り消し", "予約変更", "変更"]

/-- The whole-message cancellation list checked at the top of
`handle_reservation_flow`. -/
def cancelExactKeywords : List String :=
  ["キャンセル", "取り消し", "やめる", "中止"]

/-- `service_mapping` of `_handle_service_selection`, in dict order. -/
def serviceMapping : List (String × String) :=
  [("カット", "カット"), ("カラー", "カラー"), ("パーマ", "パーマ"),
   ("トリートメント", "トリートメント"),
   ("cut", "カット"), ("color", "カラー"), ("perm", "パーマ"),
   ("treatment", "トリートメント")]

/-- `staff_mapping` of `_handle_staff_selection`, in dict order. -/
def staffMapping : List (String × String) :=
  [("田中", "田中"), ("佐藤", "佐藤"), ("山田", "山田"),
   ("未指定", "未指定"), ("担当者", "未指定"), ("美容師", "未指定")]

/-- `self.services`: name ↦ (duration minutes, price yen). -/
def servicesList : List (String × Nat × Nat) :=
  [("カット", 60, 3000), ("カラー", 120, 8000), ("パーマ", 150, 12000),
   ("トリートメント", 90, 5000)]

/-! ## Reservation flow: replies

Each `return` site of `reservation_flow.py` becomes one constructor,
carrying exactly the data the Python f-string interpolates; the fixed
texts (farewell, prompts, error messages) are nullary. -/

/-- The reply strings of `ReservationFlow`, keyed by return site. -/
inductive RMsg where
  /-- `_start_reservation`'s service-menu prompt. -/
  | startPrompt
  /-- "予約をキャンセルいたします。またのご利用をお待ちしております。"
  (returned both by the cancellation branch of `handle_reservation_flow`
  and by the else-branch of `_handle_confirmation`). -/
  | cancelFarewell
  /-- "申し訳ございませんが、そのサービスは提供しておりません。…" -/
  | serviceNotOffered
  /-- `_handle_service_selection`'s staff-menu prompt for the chosen service. -/
  | staffPrompt (service : String)
  /-- "申し訳ございませんが、その美容師は選択できません。…" -/
  | staffNotAvailable
  /-- `_handle_staff_selection`'s date prompt for the chosen staff. -/
  | datePrompt (staff : String)
  /-- "申し訳ございませんが、その日付は選択できません。…" -/
  | dateNotSelectable
  /-- `_handle_date_selection`'s prompt listing up to 5 free times. -/
  | timePrompt (date : Nat) (times : List (Nat × Nat))
  /-- "時間を正しく入力してください（例：14:00、15時など）" -/
  | timeInvalid
  /-- "申し訳ございませんが、その時間は既に予約が入っています。…" -/
  | slotUnavailable
  /-- `_handle_time_selection`'s confirmation summary. -/
  | confirmPrompt (date : Nat) (time : Nat × Nat) (service staff : String)
      (duration price : Nat)
  /-- `_handle_confirmation`'s completion summary. -/
  | completed (date : Nat) (time : Nat × Nat) (service staff : String)
  /-- "予約フローに問題が発生しました。最初からやり直してください。" -/
  | flowError
  /-- `get_response`'s "予約のキャンセルについてですね。お電話でお問い合わせください。" -/
  | contactSupportCancel
deriving DecidableEq, Repr

/-! ## Reservation flow: operations -/

/-- The value of `detect_intent`. -/
inductive Intent where
  | reservation
  | reservation_flow
  | service_selection
  | staff_selection
  | cancel
  | general
deriving DecidableEq, Repr

/-- The keyword classification at the bottom of `detect_intent`
(reached when no open dialogue short-circuits it). -/
def genericIntent (ml : String) : Intent :=
  if reservationKeywords.any (fun k => strContains ml k) then .reservation
  else if serviceKeywords.any (fun k => strContains ml k) then .service_selection
  else if staffKeywords.any (fun k => strContains ml k) then .staff_selection
  else if cancelIntentKeywords.any (fun k => strContains ml k) then .cancel
  else .general

/-- `ReservationFlow.detect_intent(message, user_id)`.  The Python guard
`if user_id and user_id in self.user_states` is falsy for an empty id. -/
def detectIntent (store : Store) (message : String) (userId : String) : Intent :=
  let ml := strLower message
  if userId = "" then genericIntent ml
  else
    match storeFind store userId with
    | none => genericIntent ml
    | some st =>
      if st.step = Step.service_selection ∧
          serviceKeywords.any (fun k => strContains ml k) then
        .service_selection
      else if st.step = Step.date_selection ∨ st.step = Step.time_selection ∨
          st.step = Step.confirmation then
        .reservation_flow
      else genericIntent ml

/-- `_start_reservation`: move to `service_selection`, keep `data`. -/
def startReservation (store : Store) (userId : String) (st : UserState) :
    Store × RMsg :=
  (storeSet store userId ⟨Step.service_selection, st.data⟩, RMsg.startPrompt)

/-- `_handle_service_selection`: first `service_mapping` key contained in
the lowercased message wins. -/
def handleServiceSelection (store : Store) (userId : String) (message : String)
    (st : UserState) : Store × RMsg :=
  let ml := strLower message
  match serviceMapping.find? (fun p => strContains ml p.1) with
  | none => (store, RMsg.serviceNotOffered)
  | some p =>
    (storeSet store userId
      ⟨Step.staff_selection, { st.data with service := some p.2 }⟩,
     RMsg.staffPrompt p.2)

/-- `_handle_staff_selection`. -/
def handleStaffSelection (store : Store) (userId : String) (message : String)
    (st : UserState) : Store × RMsg :=
  let ml := strLower message
  match staffMapping.find? (fun p => strContains ml p.1) with
  | none => (store, RMsg.staffNotAvailable)
  | some p =>
    (storeSet store userId
      ⟨Step.date_selection, { st.data with staff := some p.2 }⟩,
     RMsg.datePrompt p.2)

/-- Free times listed for a date: `[slot["time"] for slot in
self.available_slots if slot["date"] == d and slot["available"]]`. -/
def availableTimes (env : Env) (d : Nat) : List (Nat × Nat) :=
  (env.slots.filter (fun sl => sl.date = d ∧ sl.available = true)).map (·.time)

/-- `days_ahead = 5 - weekday(); if days_ahead <= 0: days_ahead += 7`
(Python int arithmetic, hence the excursion through `Int`). -/
def satAhead (today : Nat) : Nat :=
  (let a : Int := 5 - (today % 7 : Nat); if a ≤ 0 then a + 7 else a).toNat

/-- `_handle_date_selection`: the three fixed relative-date patterns,
checked on the raw (un-lowercased) message, 明日 first. -/
def handleDateSelection (env : Env) (store : Store) (userId : String)
    (message : String) (st : UserState) : Store × RMsg :=
  let store1 (d : Nat) : Store × RMsg :=
    (storeSet store userId ⟨Step.time_selection, { st.data with date := some d }⟩,
     RMsg.timePrompt d ((availableTimes env d).take 5))
  if strContains message "明日" then store1 (env.today + 1)
  else if strContains message "明後日" then store1 (env.today + 2)
  else if strContains message "土曜日" ∨ strContains message "土曜" then
    store1 (env.today + satAhead env.today)
  else (store, RMsg.dateNotSelectable)

/-- `re.search(r'(\d{1,2}):?(\d{2})?', message)`, returning
`(hour, minute)` with `minute = 0` when group 2 is absent.  The pattern
never backtracks (everything after the first digits is optional), so the
greedy left-to-right scan below is exact. -/
def timeSearch : List Char → Option (Nat × Nat)
  | [] => none
  | c :: cs =>
    if c.isDigit then
      let (h, rest) :=
        match cs with
        | d :: ds =>
          if d.isDigit then (10 * (c.toNat - 48) + (d.toNat - 48), ds)
          else (c.toNat - 48, cs)
        | [] => (c.toNat - 48, ([] : List Char))
      let rest2 := match rest with
        | ':' :: r => r
        | _ => rest
      let m := match rest2 with
        | a :: b :: _ =>
          if a.isDigit ∧ b.isDigit then 10 * (a.toNat - 48) + (b.toNat - 48) else 0
        | _ => 0
      some (h, m)
    else timeSearch cs

/-- `_handle_time_selection`.  The Python code indexes
`self.user_states[user_id]["data"]["date"]` and `self.services[service]`
directly; both are total here via defaults that are never consulted on
states the flow actually produces. -/
def handleTimeSelection (env : Env) (store : Store) (userId : String)
    (message : String) (st : UserState) : Store × RMsg :=
  match timeSearch message.toList with
  | none => (store, RMsg.timeInvalid)
  | some t =>
    let selectedDate := st.data.date.getD 0
    if t ∈ availableTimes env selectedDate then
      let service := st.data.service.getD ""
      let info := ((servicesList.find? (fun p => p.1 = service)).getD ("", 0, 0)).2
      (storeSet store userId
        ⟨Step.confirmation, { st.data with time := some t }⟩,
       RMsg.confirmPrompt selectedDate t service (st.data.staff.getD "")
         info.1 info.2)
    else (store, RMsg.slotUnavailable)

/-- `_handle_confirmation`: affirmative by substring containment on the
raw message; the else-branch returns the farewell text *without*
deleting the state (exactly as the source does). -/
def handleConfirmation (store : Store) (userId : String) (message : String)
    (st : UserState) : Store × RMsg :=
  if strContains message "はい" ∨ strContains message "確定" ∨
      strContains message "お願い" then
    (storeDel store userId,
     RMsg.completed (st.data.date.getD 0) (st.data.time.getD (0, 0))
       (st.data.service.getD "") (st.data.staff.getD ""))
  else (store, RMsg.cancelFarewell)

/-- `if user_id not in self.user_states: self.user_states[user_id] =
{"step": "start", "data": {}}` — the entry guard of
`handle_reservation_flow`. -/
def ensureState (store : Store) (userId : String) : Store :=
  if (storeFind store userId).isNone then
    storeSet store userId ⟨Step.start, emptyData⟩
  else store

/-- The step dispatch at the bottom of `handle_reservation_flow`. -/
def dispatchStep (env : Env) (store : Store) (userId : String)
    (message : String) (st : UserState) : Store × RMsg :=
  match st.step with
  | .start => startReservation store userId st
  | .service_selection => handleServiceSelection store userId message st
  | .staff_selection => handleStaffSelection store userId message st
  | .date_selection => handleDateSelection env store userId message st
  | .time_selection => handleTimeSelection env store userId message st
  | .confirmation => handleConfirmation store userId message st

/-- `handle_reservation_flow`: ensure a state exists, whole-message
cancellation check, then dispatch on the step. -/
def handleReservationFlow (env : Env) (store : Store) (userId : String)
    (message : String) : Store × RMsg :=
  if cancelExactKeywords.contains (strLower message) then
    (storeDel (ensureState store userId) userId, RMsg.cancelFarewell)
  else
    dispatchStep env (ensureState store userId) userId message
      ((storeFind (ensureState store userId) userId).getD ⟨Step.start, emptyData⟩)

/-- `ReservationFlow.get_response`: the public entry point.  A `none`
reply is Python's `return None` — the router declines and the message
falls through to the FAQ pipeline. -/
def getResponse (env : Env) (store : Store) (userId : String)
    (message : String) : Store × Option RMsg :=
  match detectIntent store message userId with
  | .reservation | .reservation_flow | .service_selection | .staff_selection =>
    let r := handleReservationFlow env store userId message
    (r.1, some r.2)
  | .cancel => (store, some RMsg.contactSupportCancel)
  | .general => (store, none)

/-- Fold a whole conversation (each turn with its own clock) through
`get_response`, starting from the empty state store. -/
def processAll (msgs : List (Env × String × String)) : Store :=
  msgs.foldl (fun s t => (getResponse t.1 s t.2.1 t.2.2).1) []

/-! ## RAG FAQ (`rag_faq.py`) -/

/-- One entry of `faq_data.json` as `RAGFAQ` reads it
(`question`, `answer_template`, `category`). -/
structure FaqItem where
  question : String
  answer_template : String
  category : String
deriving DecidableEq, Repr

/-- The character class of `_extract_keywords`'s regex
`[a-zA-Z぀-ゟ゠-ヿ一-龯]`. -/
def isWordChar (c : Char) : Bool :=
  ('a' ≤ c && c ≤ 'z') || ('A' ≤ c && c ≤ 'Z') ||
  (0x3040 ≤ c.toNat && c.toNat ≤ 0x309F) ||
  (0x30A0 ≤ c.toNat && c.toNat ≤ 0x30FF) ||
  (0x4E00 ≤ c.toNat && c.toNat ≤ 0x9FAF)

/-- Accumulator pass behind `splitRuns`: `cur` is the reversed current
run of word characters. -/
def splitRunsAux : List Char → List Char → List (List Char)
  | [], cur => if cur.isEmpty then [] else [cur.reverse]
  | c :: cs, cur =>
    if isWordChar c then splitRunsAux cs (c :: cur)
    else if cur.isEmpty then splitRunsAux cs []
    else cur.reverse :: splitRunsAux cs []

/-- `re.findall` of the keyword regex: the maximal word-character runs. -/
def splitRuns (l : List Char) : List (List Char) := splitRunsAux l []

/-- The `stop_words` list of `_extract_keywords` (duplicates included,
exactly as in the source). -/
def stopWords : List String :=
  ["は", "が", "を", "に", "で", "と", "の", "です", "ます", "です",
   "か", "の", "を", "に", "で", "と", "は", "が"]

/-- `RAGFAQ._extract_keywords`. -/
def extractKeywords (text : String) : List String :=
  ((splitRuns text.toList).map String.mk).filter
    (fun w => 1 < w.length && !(stopWords.contains w))

/-- One entry of `self.keyword_index`. -/
structure IndexItem where
  item : FaqItem
  keywords : List String
  question : String
  answer_template : String
deriving DecidableEq, Repr

/-- `RAGFAQ._build_keyword_index`: keywords come from the lowercased
`question + ' ' + answer_template`. -/
def buildIndex (faq : List FaqItem) : List IndexItem :=
  faq.map (fun it =>
    let q := strLower it.question
    let a := strLower it.answer_template
    ⟨it, extractKeywords (q ++ " " ++ a), q, a⟩)

/-- Exact rational addition, written through `mkRat` so that the kernel
can evaluate scores on concrete inputs; `ratAdd_eq_add` below identifies
it with `+` on `ℚ`. -/
def ratAdd (a b : ℚ) : ℚ :=
  mkRat (a.num * b.den + b.num * a.den) (a.den * b.den)

/-- The score `search` gives one index entry against the query keywords
`qk`: Jaccard overlap of the keyword sets (`overlap / total`, an exact
rational standing for the Python float) plus a 0.2 bonus when some query
keyword occurs verbatim in the entry's (lowercased) question; `none`
when both keyword sets are empty (the `total_keywords > 0` guard skips
the entry). -/
def entryScore (qk : List String) (it : IndexItem) : Option ℚ :=
  let overlap := (qk.dedup.filter (fun k => it.keywords.contains k)).length
  let total := ((qk ++ it.keywords).dedup).length
  if total = 0 then none
  else some (ratAdd (mkRat overlap total)
    (if qk.any (fun k => strContains it.question k) then mkRat 1 5 else 0))

/-- One iteration of `search`'s best-match loop: replace the current
best only on a strictly greater score (`if score > best_score`). -/
def searchStep (qk : List String) (acc : Option IndexItem × ℚ)
    (it : IndexItem) : Option IndexItem × ℚ :=
  match entryScore qk it with
  | none => acc
  | some s => if acc.2 < s then (some it, s) else acc

/-- `search`'s loop over the whole keyword index. -/
def searchFold (qk : List String) (acc : Option IndexItem × ℚ) :
    List IndexItem → Option IndexItem × ℚ
  | [] => acc
  | it :: rest => searchFold qk (searchStep qk acc it) rest

/-- `RAGFAQ._extract_kb_facts`: the KB pairs whose `{KEY}` placeholder
occurs literally in the entry's (raw) answer template. -/
def extractKbFacts (kb : List (String × String)) (it : FaqItem) :
    List (String × String) :=
  kb.filter (fun p => strContains it.answer_template ("\x7b" ++ p.1 ++ "\x7d"))

/-- The dict `RAGFAQ.search` returns on a hit. -/
structure SearchResult where
  faq_item : FaqItem
  similarity_score : ℚ
  kb_facts : List (String × String)
  category : String
  question : String
deriving DecidableEq, Repr

/-- `RAGFAQ.search(query, threshold)`.  `kb` is the loaded KB store
(`self.kb_data`); the `not self.faq_data or not hasattr(...)` guard is
the emptiness test, since `_build_keyword_index` returns early exactly
when `faq_data` is empty. -/
def search (faq : List FaqItem) (kb : List (String × String))
    (query : String) (threshold : ℚ) : Option SearchResult :=
  if faq.isEmpty then none
  else
    let qk := extractKeywords (strLower query)
    let r := searchFold qk (none, 0) (buildIndex faq)
    match r.1 with
    | some bm =>
      if threshold ≤ r.2 then
        some ⟨bm.item, r.2, extractKbFacts kb bm.item, bm.item.category,
          bm.item.question⟩
      else none
    | none => none

/-- Running maximum used to define `bestScore`. -/
def stepMax (qk : List String) (b : ℚ) (it : IndexItem) : ℚ :=
  match entryScore qk it with
  | some s => max b s
  | none => b

def bestFrom (qk : List String) (b : ℚ) : List IndexItem → ℚ
  | [] => b
  | it :: rest => bestFrom qk (stepMax qk b it) rest

/-- The best score over a list of index entries (0 when none is
scoreable) — the spec's "best Jaccard-plus-bonus score over all
entries", used to state the threshold contract. -/
def bestScore (qk : List String) (l : List IndexItem) : ℚ := bestFrom qk 0 l

/-! ## ChatGPT gate (`chatgpt_faq.py`) -/

/-- `ChatGPTFAQ._is_dangerous_query`'s `dangerous_keywords`. -/
def dangerousKeywords : List String :=
  ["薬", "薬剤", "治療", "診断", "病気", "症状", "副作用",
   "アレルギー", "妊娠", "授乳", "医療", "医師", "病院"]

/-- `ChatGPTFAQ._is_dangerous_query`. -/
def isDangerousQuery (message : String) : Bool :=
  dangerousKeywords.any (fun k => strContains (strLower message) k)

/-- The fixed human-redirect refusal of `ChatGPTFAQ.get_response`. -/
def refusalMessage : String :=
  "申し訳ございませんが、その質問については分かりません。スタッフにお繋ぎします。"

/-- The fixed message the `except` clause maps any backend failure to. -/
def apiErrorMessage : String :=
  "申し訳ございませんが、現在システムの調子が悪いようです。しばらくしてから再度お試しください。"

/-- `ChatGPTFAQ.system_prompt`. -/
def systemPrompt : String :=
  "あなたは美容室「サロンAI」の親切なスタッフです。\n\n重要なルール：\n1. 提供されたKB事実のみを使用して回答してください\n2. 推測や憶測は絶対に禁止です\n3. KBにない情報は「分かりません」と答えてください\n4. 医療・薬剤に関する質問は人手誘導してください\n5. 数値の推測は禁止です\n\n回答スタイル：\n- 丁寧で親しみやすい口調\n- KB事実を自然な日本語で説明\n- 必要に応じて確認質問を追加\n- 不明な点は素直に「分かりません」と伝える\n"

/-- The fact-context block built from a search hit, appended to the
system prompt before the backend call. -/
def buildContext (kbFacts : Option SearchResult) : String :=
  match kbFacts with
  | some r =>
    if r.kb_facts.isEmpty then ""
    else
      "\n\n利用可能な事実情報：\n" ++
      (r.kb_facts.foldl (fun acc p => acc ++ "- " ++ p.1 ++ ": " ++ p.2 ++ "\n") "") ++
      "\n上記の事実情報のみを使用して回答してください。"
  | none => ""

def isSpaceChar (c : Char) : Bool :=
  c = ' ' || c = '\n' || c = '\t' || c = '\r'

/-- Python `str.strip()` on the backend's reply. -/
def strTrim (s : String) : String :=
  String.mk (((s.toList.dropWhile isSpaceChar).reverse.dropWhile isSpaceChar).reverse)

/-- `ChatGPTFAQ.get_response(user_message, kb_facts)`.  The generative
backend is a parameter (`none` = the API call raised); the second
component records whether the backend was invoked at all. -/
def chatgptGetResponse (backend : String → String → Option String)
    (userMessage : String) (kbFacts : Option SearchResult) : String × Bool :=
  let context := buildContext kbFacts
  if isDangerousQuery userMessage then (refusalMessage, false)
  else
    match backend (systemPrompt ++ context) userMessage with
    | some content => (strTrim content, true)
    | none => (apiErrorMessage, true)

/-! ## Derived predicates used by the claims -/

/-- Did `handle_reservation_flow` return a completed-reservation
summary? -/
def isCompletedMsg : RMsg → Bool
  | .completed _ _ _ _ => true
  | _ => false

/-- The `collectedData` fields each dialogue step guarantees (what the
code has necessarily stored to be at that step). -/
def stepInv (st : UserState) : Prop :=
  match st.step with
  | .start => True
  | .service_selection => True
  | .staff_selection => st.data.service.isSome = true
  | .date_selection => st.data.service.isSome = true ∧ st.data.staff.isSome = true
  | .time_selection =>
    st.data.service.isSome = true ∧ st.data.staff.isSome = true ∧
      st.data.date.isSome = true
  | .confirmation =>
    st.data.service.isSome = true ∧ st.data.staff.isSome = true ∧
      st.data.date.isSome = true ∧ st.data.time.isSome = true

/-- Every state in the store satisfies its step's data guarantee. -/
def storeInv (s : Store) : Prop :=
  ∀ userId st, storeFind s userId = some st → stepInv st

/-! ## Basic facts about the state store -/

theorem storeFind_set_self (s : Store) (u : String) (v : UserState) :
    storeFind (storeSet s u v) u = some v := by
  induction s with
  | nil => simp [storeSet, storeFind]
  | cons p rest ih =>
    obtain ⟨k, w⟩ := p
    by_cases h : k = u
    · subst h; simp [storeSet, storeFind]
    · simp [storeSet, storeFind, h, ih]

theorem storeFind_set_ne (s : Store) (u u' : String) (v : UserState)
    (h : u' ≠ u) : storeFind (storeSet s u v) u' = storeFind s u' := by
  induction s with
  | nil => simp [storeSet, storeFind, Ne.symm h]
  | cons p rest ih =>
    obtain ⟨k, w⟩ := p
    by_cases hk : k = u
    · subst hk
      simp [storeSet, storeFind, Ne.symm h]
    · simp only [storeSet, if_neg hk, storeFind]
      by_cases hk' : k = u'
      · simp [hk']
      · simp [hk', ih]

theorem storeFind_del_self (s : Store) (u : String) :
    storeFind (storeDel s u) u = none := by
  induction s with
  | nil => simp [storeDel, storeFind]
  | cons p rest ih =>
    obtain ⟨k, w⟩ := p
    by_cases h : k = u
    · simp [storeDel, h, ih]
    · simp [storeDel, storeFind, h, ih]

theorem storeFind_del_ne (s : Store) (u u' : String) (h : u' ≠ u) :
    storeFind (storeDel s u) u' = storeFind s u' := by
  induction s with
  | nil => simp [storeDel]
  | cons p rest ih =>
    obtain ⟨k, w⟩ := p
    by_cases hk : k = u
    · subst hk
      simp [storeDel, storeFind, Ne.symm h, ih]
    · simp only [storeDel, if_neg hk, storeFind]
      by_cases hk' : k = u'
      · simp [hk', ih]
      · simp [hk', ih]

/-! ## Rational-arithmetic bridge lemmas -/

theorem ratAdd_eq_add (a b : ℚ) : ratAdd a b = a + b := by
  rw [ratAdd, Rat.mkRat_eq_divInt]
  conv_rhs => rw [← Rat.num_divInt_den a, ← Rat.num_divInt_den b]
  rw [Rat.divInt_add_divInt _ _ (by exact_mod_cast a.den_ne_zero)
    (by exact_mod_cast b.den_ne_zero)]
  push_cast
  ring_nf


/-- The score, re-expressed with ordinary `ℚ` arithmetic. -/
theorem entryScore_eq (qk : List String) (it : IndexItem) :
    entryScore qk it =
      (if ((qk ++ it.keywords).dedup).length = 0 then none
       else some
        (((qk.dedup.filter (fun k => it.keywords.contains k)).length : ℚ) /
            (((qk ++ it.keywords).dedup).length : ℚ) +
          (if qk.any (fun k => strContains it.question k) then 1/5 else 0))) := by
  rw [entryScore]
  split
  · rfl
  · have h5 : (mkRat 1 5 : ℚ) = 1 / 5 := by rw [Rat.mkRat_eq_div]; norm_num
    rw [ratAdd_eq_add, Rat.mkRat_eq_div, h5]
    push_cast
    rfl

/-! ## Claim 7: the sensitivity gate -/

/-- **C7.** For every user message containing a sensitive-topic keyword
and every non-`none` search result passed to it, the Gate
(`ChatGPTFAQ.get_response`) returns the fixed human-redirect refusal
without invoking the generative backend, regardless of the backend and
of the match carried by the result. -/
theorem claim7_sensitive_gate (backend : String → String → Option String)
    (message : String) (r : SearchResult)
    (hd : isDangerousQuery message = true) :
    chatgptGetResponse backend message (some r) = (refusalMessage, false) := by
  simp [chatgptGetResponse, hd]

/-- Witness for C7: the message "アレルギーはありますか" is sensitive, and
the gate refuses it without calling a backend that would have answered. -/
theorem claim7_sensitive_gate_witness :
    isDangerousQuery "アレルギーはありますか" = true ∧
    chatgptGetResponse (fun _ _ => some "営業は10時からです")
        "アレルギーはありますか"
        (some ⟨⟨"q", "a", "c"⟩, 1/2, [("K", "V")], "c", "q"⟩) =
      (refusalMessage, false) :=
  ⟨by decide,
   claim7_sensitive_gate (fun _ _ => some "営業は10時からです")
     "アレルギーはありますか" ⟨⟨"q", "a", "c"⟩, 1/2, [("K", "V")], "c", "q"⟩
     (by decide)⟩

/-! ## Claim 5: extracted facts are exactly the referenced KB pairs -/

theorem search_some_shape {faq : List FaqItem} {kb : List (String × String)}
    {query : String} {th : ℚ} {r : SearchResult}
    (h : search faq kb query th = some r) :
    r.kb_facts = extractKbFacts kb r.faq_item := by
  unfold search at h
  split at h
  · exact absurd h (by simp)
  · simp only [] at h
    split at h
    · split at h
      · obtain rfl : _ = r := Option.some.inj h
        rfl
      · exact absurd h (by simp)
    · exact absurd h (by simp)

/-- **C5.** Whenever `search` returns a result, its `kb_facts` mapping
contains a pair `(k, v)` exactly when `(k, v)` is in the loaded KB store
and the placeholder `{k}` occurs literally in the winning entry's answer
template — every such key is included, and no other. -/
theorem claim5_extracted_facts (faq : List FaqItem)
    (kb : List (String × String)) (query : String) (th : ℚ)
    (r : SearchResult) (h : search faq kb query th = some r)
    (k v : String) :
    (k, v) ∈ r.kb_facts ↔
      (k, v) ∈ kb ∧
      strContains r.faq_item.answer_template ("\x7b" ++ k ++ "\x7d") = true := by
  rw [search_some_shape h, extractKbFacts, List.mem_filter]

/-- Witness for C5: a one-entry corpus matched by the query "えいぎょう";
the KB key `HOURS` is referenced by the winning template and is
extracted with its value. -/
theorem claim5_extracted_facts_witness :
    search [⟨"えいぎょう じかん", "えいぎょうは\x7bHOURS\x7dまで", "info"⟩]
        [("HOURS", "10時")] "えいぎょう" (mkRat 3 10) =
      some ⟨⟨"えいぎょう じかん", "えいぎょうは\x7bHOURS\x7dまで", "info"⟩,
        mkRat 2 5, [("HOURS", "10時")], "info", "えいぎょう じかん"⟩ ∧
    (("HOURS", "10時") ∈
        (⟨⟨"えいぎょう じかん", "えいぎょうは\x7bHOURS\x7dまで", "info"⟩,
          mkRat 2 5, [("HOURS", "10時")], "info",
          "えいぎょう じかん"⟩ : SearchResult).kb_facts ↔
      ("HOURS", "10時") ∈ [("HOURS", "10時")] ∧
      strContains "えいぎょうは\x7bHOURS\x7dまで" ("\x7b" ++ "HOURS" ++ "\x7d") = true) :=
  ⟨by decide,
   claim5_extracted_facts
     [⟨"えいぎょう じかん", "えいぎょうは\x7bHOURS\x7dまで", "info"⟩]
     [("HOURS", "10時")] "えいぎょう" (mkRat 3 10) _ (by decide) "HOURS" "10時"⟩

/-! ## Claim 6: the search contract (threshold, arg-max, tie-break) -/

theorem stepMax_none (qk : List String) (b : ℚ) (it : IndexItem)
    (h : entryScore qk it = none) : stepMax qk b it = b := by
  rw [stepMax, h]

theorem stepMax_some (qk : List String) (b : ℚ) (it : IndexItem) (s : ℚ)
    (h : entryScore qk it = some s) : stepMax qk b it = max b s := by
  rw [stepMax, h]

theorem searchStep_none (qk : List String) (acc : Option IndexItem × ℚ)
    (it : IndexItem) (h : entryScore qk it = none) :
    searchStep qk acc it = acc := by
  rw [searchStep, h]

theorem searchStep_some (qk : List String) (acc : Option IndexItem × ℚ)
    (it : IndexItem) (s : ℚ) (h : entryScore qk it = some s) :
    searchStep qk acc it = if acc.2 < s then (some it, s) else acc := by
  rw [searchStep, h]

theorem stepMax_le (qk : List String) (b : ℚ) (it : IndexItem) :
    b ≤ stepMax qk b it := by
  rcases h : entryScore qk it with _ | s
  · rw [stepMax_none qk b it h]
  · rw [stepMax_some qk b it s h]; exact le_max_left b s

theorem bestFrom_init_le (qk : List String) (l : List IndexItem) :
    ∀ b, b ≤ bestFrom qk b l := by
  induction l with
  | nil => intro b; exact le_refl b
  | cons it rest ih =>
    intro b
    exact le_trans (stepMax_le qk b it) (ih (stepMax qk b it))

theorem bestFrom_score_le (qk : List String) (l : List IndexItem) :
    ∀ b it, it ∈ l → ∀ s, entryScore qk it = some s → s ≤ bestFrom qk b l := by
  induction l with
  | nil => intro b it hit; exact absurd hit (List.not_mem_nil it)
  | cons it0 rest ih =>
    intro b it hit s hs
    rcases List.mem_cons.mp hit with rfl | hmem
    · have h1 : s ≤ stepMax qk b it := by
        rw [stepMax_some qk b it s hs]; exact le_max_right b s
      exact le_trans h1 (bestFrom_init_le qk rest _)
    · exact ih _ it hmem s hs

theorem bestFrom_le (qk : List String) (l : List IndexItem) :
    ∀ b B, b ≤ B → (∀ it ∈ l, ∀ s, entryScore qk it = some s → s ≤ B) →
      bestFrom qk b l ≤ B := by
  induction l with
  | nil => intro b B hb _; exact hb
  | cons it0 rest ih =>
    intro b B hb hall
    refine ih _ B ?_ (fun it hit s hs => hall it (List.mem_cons_of_mem _ hit) s hs)
    rcases h0 : entryScore qk it0 with _ | s0
    · rw [stepMax_none qk b it0 h0]; exact hb
    · rw [stepMax_some qk b it0 s0 h0]
      exact max_le hb (hall it0 (List.mem_cons_self _ _) s0 h0)

theorem searchStep_fst_le (qk : List String) (acc : Option IndexItem × ℚ)
    (it : IndexItem) : acc.2 ≤ (searchStep qk acc it).2 := by
  rcases h : entryScore qk it with _ | s
  · rw [searchStep_none qk acc it h]
  · rw [searchStep_some qk acc it s h]
    by_cases hlt : acc.2 < s
    · rw [if_pos hlt]; exact le_of_lt hlt
    · rw [if_neg hlt]

theorem searchFold_fst_le (qk : List String) (l : List IndexItem) :
    ∀ acc, acc.2 ≤ (searchFold qk acc l).2 := by
  induction l with
  | nil => intro acc; exact le_refl _
  | cons it rest ih =>
    intro acc
    exact le_trans (searchStep_fst_le qk acc it) (ih (searchStep qk acc it))

/-- Invariant of `search`'s best-match loop: the final best value bounds
every scoreable entry, and unless the accumulator survives untouched,
the loop returns the entry at an index whose score equals the final best
value, with every *earlier* scoreable entry strictly below it (the
`score > best_score` test keeps the first maximiser). -/
theorem searchFold_spec (qk : List String) (l : List IndexItem) :
    ∀ acc : Option IndexItem × ℚ,
    (∀ it ∈ l, ∀ s, entryScore qk it = some s → s ≤ (searchFold qk acc l).2) ∧
    (searchFold qk acc l = acc ∨
      ∃ i, ∃ h : i < l.length,
        (searchFold qk acc l).1 = some (l.get ⟨i, h⟩) ∧
        entryScore qk (l.get ⟨i, h⟩) = some (searchFold qk acc l).2 ∧
        acc.2 < (searchFold qk acc l).2 ∧
        ∀ j (hj : j < i), ∀ s,
          entryScore qk (l.get ⟨j, Nat.lt_trans hj h⟩) = some s →
            s < (searchFold qk acc l).2) := by
  induction l with
  | nil =>
    intro acc
    refine ⟨fun it hit => absurd hit (List.not_mem_nil it), Or.inl rfl⟩
  | cons it0 rest ih =>
    intro acc
    obtain ⟨ihb, ihd⟩ := ih (searchStep qk acc it0)
    have hstep : searchFold qk acc (it0 :: rest) =
        searchFold qk (searchStep qk acc it0) rest := rfl
    have hs0 : ∀ s, entryScore qk it0 = some s → s ≤ (searchStep qk acc it0).2 := by
      intro s hs
      rw [searchStep_some qk acc it0 s hs]
      by_cases h : acc.2 < s
      · rw [if_pos h]
      · rw [if_neg h]; exact le_of_not_lt h
    constructor
    · intro it hit s hs
      rcases List.mem_cons.mp hit with rfl | hmem
      · exact le_trans (hs0 s hs) (by rw [hstep]; exact searchFold_fst_le qk rest _)
      · rw [hstep]; exact ihb it hmem s hs
    · rcases ihd with heq | ⟨i, hi, h1, h2, h3, h4⟩
      · -- the tail left the accumulator unchanged
        rw [hstep, heq]
        rcases hsc : entryScore qk it0 with _ | s0
        · rw [searchStep_none qk acc it0 hsc]; exact Or.inl rfl
        · rw [searchStep_some qk acc it0 s0 hsc]
          by_cases hlt : acc.2 < s0
          · rw [if_pos hlt]
            refine Or.inr ⟨0, Nat.succ_pos _, rfl, ?_, hlt, ?_⟩
            · exact hsc
            · intro j hj; exact absurd hj (Nat.not_lt_zero j)
          · rw [if_neg hlt]; exact Or.inl rfl
      · -- the tail selected index i of rest; overall index i+1
        refine Or.inr ⟨i + 1, Nat.succ_lt_succ hi, ?_, ?_, ?_, ?_⟩
        · rw [hstep]; exact h1
        · rw [hstep]; exact h2
        · rw [hstep]
          exact lt_of_le_of_lt (searchStep_fst_le qk acc it0) h3
        · intro j hj s hs
          rw [hstep]
          rcases j with _ | j'
          · -- the head entry scored at most the accumulator the tail started from
            have : s ≤ (searchStep qk acc it0).2 := hs0 s hs
            exact lt_of_le_of_lt this h3
          · exact h4 j' (Nat.lt_of_succ_lt_succ hj) s hs

/-- On a non-empty corpus, `search` is the best-match loop followed by
the threshold test (the shape of the code after the emptiness guard). -/
theorem search_nonempty (faq : List FaqItem) (kb : List (String × String))
    (query : String) (th : ℚ) (hf : faq ≠ []) :
    search faq kb query th =
      match (searchFold (extractKeywords (strLower query)) (none, 0)
          (buildIndex faq)).1 with
      | some bm =>
        if th ≤ (searchFold (extractKeywords (strLower query)) (none, 0)
            (buildIndex faq)).2 then
          some ⟨bm.item,
            (searchFold (extractKeywords (strLower query)) (none, 0)
              (buildIndex faq)).2,
            extractKbFacts kb bm.item, bm.item.category, bm.item.question⟩
        else none
      | none => none := by
  unfold search
  rw [if_neg (by simpa [List.isEmpty_iff] using hf)]

/-- **C6.** For every query and loaded corpus (and any positive
threshold, 0.3 by default): `search` returns `none` exactly when the
corpus is empty or the best Jaccard-plus-bonus score over all entries is
strictly below the threshold; otherwise it returns the arg-max entry
with that best score, and on ties the entry at the earliest corpus-load
index wins (every scoreable entry at an earlier index scores strictly
below the winner's). -/
theorem claim6_search_contract (faq : List FaqItem)
    (kb : List (String × String)) (query : String) (th : ℚ) (hth : 0 < th) :
    (search faq kb query th = none ↔
      faq = [] ∨
        bestScore (extractKeywords (strLower query)) (buildIndex faq) < th) ∧
    (∀ r, search faq kb query th = some r →
      r.similarity_score =
        bestScore (extractKeywords (strLower query)) (buildIndex faq) ∧
      th ≤ r.similarity_score ∧
      ∃ i, ∃ h : i < (buildIndex faq).length,
        r.faq_item = ((buildIndex faq).get ⟨i, h⟩).item ∧
        entryScore (extractKeywords (strLower query))
            ((buildIndex faq).get ⟨i, h⟩) = some r.similarity_score ∧
        ∀ j (hj : j < i), ∀ s,
          entryScore (extractKeywords (strLower query))
              ((buildIndex faq).get ⟨j, Nat.lt_trans hj h⟩) = some s →
            s < r.similarity_score) := by
  by_cases hf : faq = []
  · subst hf
    constructor
    · simp [search]
    · intro r hr; exact absurd hr (by simp [search])
  · have hne := search_nonempty faq kb query th hf
    obtain ⟨hbound, hdisj⟩ := searchFold_spec (extractKeywords (strLower query))
      (buildIndex faq) ((none : Option IndexItem), (0 : ℚ))
    have hnn := searchFold_fst_le (extractKeywords (strLower query))
      (buildIndex faq) ((none : Option IndexItem), (0 : ℚ))
    rcases hrr : searchFold (extractKeywords (strLower query)) (none, 0)
      (buildIndex faq) with ⟨r1, r2⟩
    rw [hrr] at hne hbound hdisj hnn
    dsimp only at hne hbound hdisj hnn
    have hbest : bestScore (extractKeywords (strLower query)) (buildIndex faq) = r2 := by
      apply le_antisymm
      · exact bestFrom_le _ _ 0 r2 hnn hbound
      · rcases hdisj with heq | ⟨i, hi, h1, h2, h3, h4⟩
        · have : r2 = 0 := congrArg Prod.snd heq
          rw [this]
          exact bestFrom_init_le _ _ 0
        · exact bestFrom_score_le _ _ 0 _ (List.get_mem _ _ _) r2 h2
    rcases r1 with _ | bm
    · -- no entry ever beat the initial score 0
      dsimp only at hne
      have hr2 : r2 = 0 := by
        rcases hdisj with heq | ⟨i, hi, h1, _, _, _⟩
        · exact congrArg Prod.snd heq
        · exact Option.noConfusion h1
      constructor
      · rw [hne]
        refine Iff.intro (fun _ => Or.inr ?_) (fun _ => rfl)
        rw [hbest, hr2]
        exact hth
      · intro r hr
        rw [hne] at hr
        exact absurd hr (by simp)
    · dsimp only at hne
      by_cases hthr : th ≤ r2
      · constructor
        · rw [hne, if_pos hthr]
          constructor
          · intro h; exact absurd h (by simp)
          · intro h
            rcases h with h | h
            · exact absurd h hf
            · rw [hbest] at h; exact absurd hthr (not_le_of_lt h)
        · intro r hr
          rw [hne] at hr
          rw [if_pos hthr] at hr
          obtain rfl : _ = r := Option.some.inj hr
          refine ⟨hbest.symm, hthr, ?_⟩
          rcases hdisj with heq | ⟨i, hi, h1, h2, h3, h4⟩
          · exact absurd (congrArg Prod.fst heq) (by simp)
          · obtain rfl : (buildIndex faq).get ⟨i, hi⟩ = bm :=
              (Option.some.inj h1).symm
            exact ⟨i, hi, rfl, h2, h4⟩
      · constructor
        · rw [hne, if_neg hthr]
          refine Iff.intro (fun _ => Or.inr ?_) (fun _ => rfl)
          rw [hbest]
          exact lt_of_not_le hthr
        · intro r hr
          rw [hne] at hr
          rw [if_neg hthr] at hr
          exact absurd hr (by simp)

/-- Witness for C6: the contract instantiated at the default threshold
0.3 on a concrete corpus and query. -/
theorem claim6_search_contract_witness :
    (0 : ℚ) < mkRat 3 10 ∧
    ((search [⟨"えいぎょう じかん", "えいぎょうは\x7bHOURS\x7dまで", "info"⟩]
          [("HOURS", "10時")] "えいぎょう" (mkRat 3 10) = none ↔
        [(⟨"えいぎょう じかん", "えいぎょうは\x7bHOURS\x7dまで", "info"⟩ : FaqItem)] = [] ∨
          bestScore (extractKeywords (strLower "えいぎょう"))
              (buildIndex [⟨"えいぎょう じかん", "えいぎょうは\x7bHOURS\x7dまで", "info"⟩]) <
            mkRat 3 10) ∧
      (∀ r, search [⟨"えいぎょう じかん", "えいぎょうは\x7bHOURS\x7dまで", "info"⟩]
          [("HOURS", "10時")] "えいぎょう" (mkRat 3 10) = some r →
        r.similarity_score =
          bestScore (extractKeywords (strLower "えいぎょう"))
            (buildIndex [⟨"えいぎょう じかん", "えいぎょうは\x7bHOURS\x7dまで", "info"⟩]) ∧
        mkRat 3 10 ≤ r.similarity_score ∧
        ∃ i, ∃ h : i < (buildIndex
            [⟨"えいぎょう じかん", "えいぎょうは\x7bHOURS\x7dまで", "info"⟩]).length,
          r.faq_item = ((buildIndex
              [⟨"えいぎょう じかん", "えいぎょうは\x7bHOURS\x7dまで", "info"⟩]).get ⟨i, h⟩).item ∧
          entryScore (extractKeywords (strLower "えいぎょう"))
              ((buildIndex
                [⟨"えいぎょう じかん", "えいぎょうは\x7bHOURS\x7dまで", "info"⟩]).get ⟨i, h⟩) =
            some r.similarity_score ∧
          ∀ j (hj : j < i), ∀ s,
            entryScore (extractKeywords (strLower "えいぎょう"))
                ((buildIndex
                  [⟨"えいぎょう じかん", "えいぎょうは\x7bHOURS\x7dまで", "info"⟩]).get
                  ⟨j, Nat.lt_trans hj h⟩) = some s →
              s < r.similarity_score)) :=
  ⟨by decide,
   claim6_search_contract
     [⟨"えいぎょう じかん", "えいぎょうは\x7bHOURS\x7dまで", "info"⟩]
     [("HOURS", "10時")] "えいぎょう" (mkRat 3 10) (by decide)⟩

/-! ## Claim 8: data completeness at `confirmation` -/

theorem storeInv_set (s : Store) (u : String) (v : UserState)
    (h : storeInv s) (hv : stepInv v) : storeInv (storeSet s u v) := by
  intro userId st hfind
  by_cases hu : userId = u
  · subst hu
    rw [storeFind_set_self] at hfind
    obtain rfl : v = st := Option.some.inj hfind
    exact hv
  · rw [storeFind_set_ne s u userId v hu] at hfind
    exact h userId st hfind

theorem storeInv_del (s : Store) (u : String) (h : storeInv s) :
    storeInv (storeDel s u) := by
  intro userId st hfind
  by_cases hu : userId = u
  · subst hu
    rw [storeFind_del_self] at hfind
    exact absurd hfind (by simp)
  · rw [storeFind_del_ne s u userId hu] at hfind
    exact h userId st hfind

theorem ensureState_inv (s : Store) (u : String) (h : storeInv s) :
    storeInv (ensureState s u) := by
  rw [ensureState]
  split
  · exact storeInv_set s u _ h trivial
  · exact h

theorem ensureState_find (s : Store) (u : String) :
    storeFind (ensureState s u) u =
      some ((storeFind s u).getD ⟨Step.start, emptyData⟩) := by
  rcases hf : storeFind s u with _ | st
  · rw [ensureState, hf]
    simp [storeFind_set_self]
  · rw [ensureState, hf]
    simp [hf]

theorem startReservation_inv (store : Store) (u : String) (st : UserState)
    (h : storeInv store) : storeInv (startReservation store u st).1 :=
  storeInv_set _ _ _ h trivial

theorem handleServiceSelection_inv (store : Store) (u msg : String)
    (st : UserState) (h : storeInv store) :
    storeInv (handleServiceSelection store u msg st).1 := by
  simp only [handleServiceSelection]
  rcases hf : serviceMapping.find? (fun p => strContains (strLower msg) p.1)
    with _ | p
  · rw [hf]; exact h
  · rw [hf]; exact storeInv_set _ _ _ h rfl

theorem handleStaffSelection_inv (store : Store) (u msg : String)
    (st : UserState) (h : storeInv store)
    (hsvc : st.data.service.isSome = true) :
    storeInv (handleStaffSelection store u msg st).1 := by
  simp only [handleStaffSelection]
  rcases hf : staffMapping.find? (fun p => strContains (strLower msg) p.1)
    with _ | p
  · rw [hf]; exact h
  · rw [hf]; exact storeInv_set _ _ _ h ⟨hsvc, rfl⟩

theorem handleDateSelection_inv (env : Env) (store : Store) (u msg : String)
    (st : UserState) (h : storeInv store)
    (hsvc : st.data.service.isSome = true)
    (hstf : st.data.staff.isSome = true) :
    storeInv (handleDateSelection env store u msg st).1 := by
  simp only [handleDateSelection]
  split
  · exact storeInv_set _ _ _ h ⟨hsvc, hstf, rfl⟩
  · split
    · exact storeInv_set _ _ _ h ⟨hsvc, hstf, rfl⟩
    · split
      · exact storeInv_set _ _ _ h ⟨hsvc, hstf, rfl⟩
      · exact h

theorem handleTimeSelection_inv (env : Env) (store : Store) (u msg : String)
    (st : UserState) (h : storeInv store)
    (hsvc : st.data.service.isSome = true)
    (hstf : st.data.staff.isSome = true)
    (hdt : st.data.date.isSome = true) :
    storeInv (handleTimeSelection env store u msg st).1 := by
  simp only [handleTimeSelection]
  rcases ht : timeSearch msg.toList with _ | t
  · exact h
  · dsimp only
    split
    · exact storeInv_set _ _ _ h ⟨hsvc, hstf, hdt, rfl⟩
    · exact h

theorem handleConfirmation_inv (store : Store) (u msg : String)
    (st : UserState) (h : storeInv store) :
    storeInv (handleConfirmation store u msg st).1 := by
  rw [handleConfirmation]
  split
  · exact storeInv_del _ _ h
  · exact h

theorem dispatchStep_inv (env : Env) (store : Store) (u msg : String)
    (st : UserState) (h : storeInv store) (hst : stepInv st) :
    storeInv (dispatchStep env store u msg st).1 := by
  obtain ⟨stp, data⟩ := st
  cases stp
  · exact startReservation_inv store u _ h
  · exact handleServiceSelection_inv store u msg _ h
  · exact handleStaffSelection_inv store u msg _ h hst
  · exact handleDateSelection_inv env store u msg _ h hst.1 hst.2
  · exact handleTimeSelection_inv env store u msg _ h hst.1 hst.2.1 hst.2.2
  · exact handleConfirmation_inv store u msg _ h

theorem handleReservationFlow_inv (env : Env) (store : Store) (u msg : String)
    (h : storeInv store) : storeInv (handleReservationFlow env store u msg).1 := by
  rw [handleReservationFlow]
  split
  · exact storeInv_del _ _ (ensureState_inv store u h)
  · have hf := ensureState_find store u
    have hinv := ensureState_inv store u h
    have hst := hinv u _ hf
    have heq : (storeFind (ensureState store u) u).getD ⟨Step.start, emptyData⟩ =
        (storeFind store u).getD ⟨Step.start, emptyData⟩ := by rw [hf]; rfl
    rw [heq]
    exact dispatchStep_inv env _ u msg _ hinv hst

theorem getResponse_inv (env : Env) (store : Store) (u msg : String)
    (h : storeInv store) : storeInv (getResponse env store u msg).1 := by
  rw [getResponse]
  rcases hdi : detectIntent store msg u
  · exact handleReservationFlow_inv env store u msg h
  · exact handleReservationFlow_inv env store u msg h
  · exact handleReservationFlow_inv env store u msg h
  · exact handleReservationFlow_inv env store u msg h
  · exact h
  · exact h

theorem processAll_inv (msgs : List (Env × String × String)) :
    storeInv (processAll msgs) := by
  suffices h : ∀ s, storeInv s →
      storeInv (msgs.foldl (fun st t => (getResponse t.1 st t.2.1 t.2.2).1) s) by
    exact h [] (fun u st hf => absurd hf (by simp [storeFind]))
  induction msgs with
  | nil => intro s hs; exact hs
  | cons m rest ih =>
    intro s hs
    exact ih _ (getResponse_inv m.1 s m.2.1 m.2.2 hs)

/-- **C8.** Along every conversation processed through `get_response`
from the empty state store, whenever a user's state sits at step
`confirmation`, all four of `service`, `staff`, `date` and `time` are
present in that user's collected data. -/
theorem claim8_confirmation_data_complete (msgs : List (Env × String × String))
    (userId : String) (st : UserState)
    (h : storeFind (processAll msgs) userId = some st)
    (hc : st.step = Step.confirmation) :
    st.data.service.isSome = true ∧ st.data.staff.isSome = true ∧
      st.data.date.isSome = true ∧ st.data.time.isSome = true := by
  have hst := processAll_inv msgs userId st h
  obtain ⟨stp, data⟩ := st
  cases hc
  exact hst

/-- Witness for C8: a five-turn conversation that reaches
`confirmation`, where the invariant is checked concretely. -/
theorem claim8_confirmation_data_complete_witness :
    storeFind (processAll [(mkEnv 1, "u", "予約"), (mkEnv 1, "u", "カット"),
        (mkEnv 1, "u", "田中"), (mkEnv 1, "u", "明日"), (mkEnv 1, "u", "10:00")])
        "u" =
      some ⟨Step.confirmation, ⟨some "カット", some "田中", some 2, some (10, 0)⟩⟩ ∧
    ((⟨Step.confirmation, ⟨some "カット", some "田中", some 2, some (10, 0)⟩⟩ :
        UserState).data.service.isSome = true ∧
      (⟨Step.confirmation, ⟨some "カット", some "田中", some 2, some (10, 0)⟩⟩ :
        UserState).data.staff.isSome = true ∧
      (⟨Step.confirmation, ⟨some "カット", some "田中", some 2, some (10, 0)⟩⟩ :
        UserState).data.date.isSome = true ∧
      (⟨Step.confirmation, ⟨some "カット", some "田中", some 2, some (10, 0)⟩⟩ :
        UserState).data.time.isSome = true) :=
  ⟨by decide,
   claim8_confirmation_data_complete
     [(mkEnv 1, "u", "予約"), (mkEnv 1, "u", "カット"), (mkEnv 1, "u", "田中"),
      (mkEnv 1, "u", "明日"), (mkEnv 1, "u", "10:00")] "u"
     ⟨Step.confirmation, ⟨some "カット", some "田中", some 2, some (10, 0)⟩⟩
     (by decide) rfl⟩

/-! ## Claim 9: resolution of the Saturday keyword -/

/-- Closed form of `days_ahead = 5 - weekday(); if days_ahead <= 0:
days_ahead += 7`. -/
theorem satAhead_eq (today : Nat) :
    satAhead today =
      (if 5 ≤ today % 7 then 12 - today % 7 else 5 - today % 7) := by
  rw [satAhead]
  dsimp only
  split <;> split <;> omega

/-- **C9 (amended).** At `date_selection`, a message containing 土曜日 or
土曜 — and containing neither of the higher-priority keywords 明日 and
明後日, which are checked first — stores a concrete resolved date: the
Saturday of the current (Monday-based) week when today is Monday–Friday,
and the next Saturday strictly after today (rolling to next week) when
today is Saturday or Sunday. -/
theorem claim9_saturday_resolution (env : Env) (store : Store)
    (userId msg : String) (st : UserState)
    (hsat : (strContains msg "土曜日" || strContains msg "土曜") = true)
    (h1 : strContains msg "明日" = false)
    (h2 : strContains msg "明後日" = false) :
    ∃ d : Nat,
      handleDateSelection env store userId msg st =
        (storeSet store userId
          ⟨Step.time_selection, { st.data with date := some d }⟩,
         RMsg.timePrompt d ((availableTimes env d).take 5)) ∧
      (env.today % 7 = 5 ∨ env.today % 7 = 6 →
        env.today < d ∧ d % 7 = 5 ∧ d ≤ env.today + 7) ∧
      (env.today % 7 < 5 → d = env.today - env.today % 7 + 5) := by
  refine ⟨env.today + satAhead env.today, ?_, ?_, ?_⟩
  · simp only [handleDateSelection]
    rw [if_neg (by simp [h1]), if_neg (by simp [h2]),
      if_pos (by simpa using hsat)]
  · intro hw
    have h5 : 5 ≤ env.today % 7 := by rcases hw with hw | hw <;> omega
    rw [satAhead_eq, if_pos h5]
    omega
  · intro hw
    rw [satAhead_eq, if_neg (by omega)]
    omega

/-- Witness for C9 (amended): Thursday (day 3), message 「今週の土曜日で」
resolves to day 5, that week's Saturday. -/
theorem claim9_saturday_resolution_witness :
    (strContains "今週の土曜日で" "土曜日" || strContains "今週の土曜日で" "土曜") = true ∧
    strContains "今週の土曜日で" "明日" = false ∧
    strContains "今週の土曜日で" "明後日" = false ∧
    (∃ d : Nat,
      handleDateSelection (mkEnv 3)
          [("u", ⟨Step.date_selection, ⟨some "カット", some "田中", none, none⟩⟩)]
          "u" "今週の土曜日で"
          ⟨Step.date_selection, ⟨some "カット", some "田中", none, none⟩⟩ =
        (storeSet [("u", ⟨Step.date_selection, ⟨some "カット", some "田中", none, none⟩⟩)]
          "u" ⟨Step.time_selection,
            { (⟨some "カット", some "田中", none, none⟩ : CollectedData) with
              date := some d }⟩,
         RMsg.timePrompt d ((availableTimes (mkEnv 3) d).take 5)) ∧
      ((mkEnv 3).today % 7 = 5 ∨ (mkEnv 3).today % 7 = 6 →
        (mkEnv 3).today < d ∧ d % 7 = 5 ∧ d ≤ (mkEnv 3).today + 7) ∧
      ((mkEnv 3).today % 7 < 5 → d = (mkEnv 3).today - (mkEnv 3).today % 7 + 5)) :=
  ⟨by decide, by decide, by decide,
   claim9_saturday_resolution (mkEnv 3)
     [("u", ⟨Step.date_selection, ⟨some "カット", some "田中", none, none⟩⟩)]
     "u" "今週の土曜日で"
     ⟨Step.date_selection, ⟨some "カット", some "田中", none, none⟩⟩
     (by decide) (by decide) (by decide)⟩

/-- Counterexample to C9 as stated: on a Monday (day 7), the message
「明日は無理なので土曜日で」 contains 土曜日, yet the stored date is day 8
(tomorrow — the 明日 branch wins), which is not a Saturday. -/
theorem claim9_counterexample :
    strContains "明日は無理なので土曜日で" "土曜日" = true ∧
    (storeFind (handleDateSelection (mkEnv 7)
        [("u", ⟨Step.date_selection, ⟨some "カット", some "田中", none, none⟩⟩)]
        "u" "明日は無理なので土曜日で"
        ⟨Step.date_selection, ⟨some "カット", some "田中", none, none⟩⟩).1 "u").map
        (fun s => s.data.date) = some (some 8) ∧
    (8 : Nat) % 7 ≠ 5 := by decide

/-! ## Claim 1: in-flow continuation through the router -/

/-- **C1 (amended).** For a user whose open state sits at
`date_selection`, `time_selection` or `confirmation`, the router
dispatches *every* message to the dialogue engine
(`handle_reservation_flow`), never to the FAQ pipeline.  (At
`staff_selection`, and at `service_selection` for messages without a
service keyword, `detect_intent` falls through to generic
classification instead — see the counterexample.) -/
theorem claim1_inflow_dispatch (env : Env) (store : Store)
    (userId msg : String) (st : UserState) (hu : userId ≠ "")
    (h : storeFind store userId = some st)
    (hstep : st.step = Step.date_selection ∨ st.step = Step.time_selection ∨
      st.step = Step.confirmation) :
    getResponse env store userId msg =
      ((handleReservationFlow env store userId msg).1,
       some (handleReservationFlow env store userId msg).2) := by
  have hint : detectIntent store msg userId = Intent.reservation_flow := by
    simp only [detectIntent]
    rw [if_neg hu, h]
    dsimp only
    rcases hstep with h1 | h1 | h1 <;> rw [h1] <;> simp
  rw [getResponse, hint]

/-- Witness for C1 (amended): a greeting sent at `date_selection` is
still handled by the dialogue engine. -/
theorem claim1_inflow_dispatch_witness :
    ("u" : String) ≠ "" ∧
    storeFind [("u", (⟨Step.date_selection,
        ⟨some "カット", some "田中", none, none⟩⟩ : UserState))] "u" =
      some ⟨Step.date_selection, ⟨some "カット", some "田中", none, none⟩⟩ ∧
    getResponse (mkEnv 1)
        [("u", ⟨Step.date_selection, ⟨some "カット", some "田中", none, none⟩⟩)]
        "u" "こんにちは" =
      ((handleReservationFlow (mkEnv 1)
          [("u", ⟨Step.date_selection, ⟨some "カット", some "田中", none, none⟩⟩)]
          "u" "こんにちは").1,
       some (handleReservationFlow (mkEnv 1)
          [("u", ⟨Step.date_selection, ⟨some "カット", some "田中", none, none⟩⟩)]
          "u" "こんにちは").2) :=
  ⟨by decide, by decide,
   claim1_inflow_dispatch (mkEnv 1)
     [("u", ⟨Step.date_selection, ⟨some "カット", some "田中", none, none⟩⟩)]
     "u" "こんにちは" ⟨Step.date_selection, ⟨some "カット", some "田中", none, none⟩⟩
     (by decide) (by decide) (Or.inl rfl)⟩

/-- Counterexample to C1 as stated: a user with an *open* state at
`staff_selection` (reached by 予約 → カット) sends the non-keyword,
non-cancellation message こんにちは, and the router returns `none` —
the message is handed to the FAQ pipeline despite the open dialogue. -/
theorem claim1_counterexample :
    (storeFind (processAll [(mkEnv 1, "u", "予約"), (mkEnv 1, "u", "カット")])
        "u").map (fun st => st.step) = some Step.staff_selection ∧
    (getResponse (mkEnv 1)
        (processAll [(mkEnv 1, "u", "予約"), (mkEnv 1, "u", "カット")])
        "u" "こんにちは").2 = none ∧
    cancelExactKeywords.contains (strLower "こんにちは") = false := by decide

/-! ## Claim 2: cancellation keywords at every non-terminal step -/

/-- **C2 (code bug, evaluation).** A user at `service_selection`
(reached by sending 予約) sends exactly キャンセル — the cancellation
keyword every prompt advertises.  `detect_intent` falls through to
generic classification, returns intent `cancel`, and `get_response`
replies with the contact-support message while the user's state
survives unchanged at `service_selection`; the state is not deleted and
the farewell is never produced. -/
theorem claim2_cancel_keyword_misrouted :
    storeFind (getResponse (mkEnv 1) [] "u" "予約").1 "u" =
      some ⟨Step.service_selection, emptyData⟩ ∧
    getResponse (mkEnv 1) (getResponse (mkEnv 1) [] "u" "予約").1 "u"
        "キャンセル" =
      ((getResponse (mkEnv 1) [] "u" "予約").1,
       some RMsg.contactSupportCancel) := by decide

/-! ## Claim 3: non-affirmative input at `confirmation` -/

/-- **C3 (code bug, evaluation).** At `confirmation` (reached by the
five-turn flow 予約 → カット → 田中 → 明日 → 10:00), the non-affirmative,
non-cancellation reply いいえ returns the farewell message, but the
`else` branch of `_handle_confirmation` never deletes
`self.user_states[user_id]`: the state is still at `confirmation`, and
a subsequent はい completes the booking the user was just told was
cancelled. -/
theorem claim3_decline_keeps_state :
    (storeFind (processAll [(mkEnv 1, "u", "予約"), (mkEnv 1, "u", "カット"),
        (mkEnv 1, "u", "田中"), (mkEnv 1, "u", "明日"), (mkEnv 1, "u", "10:00")])
        "u").map (fun st => st.step) = some Step.confirmation ∧
    (getResponse (mkEnv 1)
        (processAll [(mkEnv 1, "u", "予約"), (mkEnv 1, "u", "カット"),
          (mkEnv 1, "u", "田中"), (mkEnv 1, "u", "明日"), (mkEnv 1, "u", "10:00")])
        "u" "いいえ").2 = some RMsg.cancelFarewell ∧
    storeFind (getResponse (mkEnv 1)
        (processAll [(mkEnv 1, "u", "予約"), (mkEnv 1, "u", "カット"),
          (mkEnv 1, "u", "田中"), (mkEnv 1, "u", "明日"), (mkEnv 1, "u", "10:00")])
        "u" "いいえ").1 "u" =
      storeFind (processAll [(mkEnv 1, "u", "予約"), (mkEnv 1, "u", "カット"),
        (mkEnv 1, "u", "田中"), (mkEnv 1, "u", "明日"), (mkEnv 1, "u", "10:00")])
        "u" ∧
    (getResponse (mkEnv 1)
        (getResponse (mkEnv 1)
          (processAll [(mkEnv 1, "u", "予約"), (mkEnv 1, "u", "カット"),
            (mkEnv 1, "u", "田中"), (mkEnv 1, "u", "明日"), (mkEnv 1, "u", "10:00")])
          "u" "いいえ").1
        "u" "はい").2 =
      some (RMsg.completed 2 (10, 0) "カット" "田中") := by decide

/-! ## Claim 4: the direct service-keyword message with no open dialogue -/

theorem cancelExact_generic_not_service (x : String)
    (hx : cancelExactKeywords.contains x = true) :
    genericIntent x ≠ Intent.service_selection := by
  have hmem : x = "キャンセル" ∨ x = "取り消し" ∨ x = "やめる" ∨ x = "中止" := by
    simpa [cancelExactKeywords] using hx
  rcases hmem with h | h | h | h <;> subst h <;> decide

/-- **C4 (amended).** A user with no open dialogue whose message
classifies as a direct service keyword gets a *fresh* dialogue at
`service_selection` with nothing collected — the service named in the
triggering message is not consumed — and the service-menu prompt as the
reply. -/
theorem claim4_service_keyword_start (env : Env) (store : Store)
    (userId msg : String) (hu : userId ≠ "")
    (hn : storeFind store userId = none)
    (hg : genericIntent (strLower msg) = Intent.service_selection) :
    storeFind (getResponse env store userId msg).1 userId =
      some ⟨Step.service_selection, emptyData⟩ ∧
    (getResponse env store userId msg).2 = some RMsg.startPrompt := by
  have hint : detectIntent store msg userId = Intent.service_selection := by
    simp only [detectIntent]
    rw [if_neg hu, hn]
    exact hg
  have hcancel : cancelExactKeywords.contains (strLower msg) = false := by
    rcases hc : cancelExactKeywords.contains (strLower msg) with _ | _
    · rfl
    · exact absurd hg (cancelExact_generic_not_service (strLower msg) hc)
  have hens : ensureState store userId =
      storeSet store userId ⟨Step.start, emptyData⟩ := by
    rw [ensureState, hn]
    rfl
  have hflow : handleReservationFlow env store userId msg =
      (storeSet (storeSet store userId ⟨Step.start, emptyData⟩) userId
        ⟨Step.service_selection, emptyData⟩, RMsg.startPrompt) := by
    rw [handleReservationFlow,
      if_neg (show ¬cancelExactKeywords.contains (strLower msg) = true by
        rw [hcancel]; exact Bool.false_ne_true),
      hens, storeFind_set_self]
    rfl
  have hresp : getResponse env store userId msg =
      (storeSet (storeSet store userId ⟨Step.start, emptyData⟩) userId
        ⟨Step.service_selection, emptyData⟩, some RMsg.startPrompt) := by
    rw [getResponse, hint]
    dsimp only
    rw [hflow]
  rw [hresp]
  exact ⟨storeFind_set_self _ _ _, rfl⟩

/-- Witness for C4 (amended): the message パーマ from a fresh user. -/
theorem claim4_service_keyword_start_witness :
    ("u" : String) ≠ "" ∧
    storeFind [] "u" = none ∧
    genericIntent (strLower "パーマ") = Intent.service_selection ∧
    (storeFind (getResponse (mkEnv 1) [] "u" "パーマ").1 "u" =
        some ⟨Step.service_selection, emptyData⟩ ∧
      (getResponse (mkEnv 1) [] "u" "パーマ").2 = some RMsg.startPrompt) :=
  ⟨by decide, rfl, by decide,
   claim4_service_keyword_start (mkEnv 1) [] "u" "パーマ"
     (by decide) rfl (by decide)⟩

/-- Counterexample to C4 as stated: after the message パーマ from a user
with no open dialogue, the new state is at `service_selection` (not
`staff_selection`) and `collectedData.service` is unset (not パーマ). -/
theorem claim4_counterexample :
    storeFind (getResponse (mkEnv 1) [] "u" "パーマ").1 "u" =
      some ⟨Step.service_selection, emptyData⟩ ∧
    Step.service_selection ≠ Step.staff_selection ∧
    emptyData.service ≠ some "パーマ" := by decide

/-! ## Claim 10: whole-message cancellation vs. substring affirmation -/

/-- **C10.** Inside an open dialogue the immediate-cancellation branch
fires exactly on whole-message (lowercased) equality with キャンセル /
取り消し / やめる / 中止, while the affirmative test at `confirmation`
uses substring containment of はい / 確定 / お願い.  Hence at
`confirmation`, a message that is not exactly a cancellation keyword
completes the reservation (completion summary, state deleted) if and
only if it contains one of the affirmative substrings — so
「キャンセルでお願いします」 completes the booking rather than
cancelling it. -/
theorem claim10_exact_cancel_vs_substring_affirm (env : Env) (store : Store)
    (userId msg : String) (st : UserState)
    (h : storeFind store userId = some st)
    (hstep : st.step = Step.confirmation) :
    (cancelExactKeywords.contains (strLower msg) = true →
      handleReservationFlow env store userId msg =
        (storeDel store userId, RMsg.cancelFarewell)) ∧
    (cancelExactKeywords.contains (strLower msg) = false →
      ((isCompletedMsg (handleReservationFlow env store userId msg).2 = true ∧
          storeFind (handleReservationFlow env store userId msg).1 userId = none) ↔
        (strContains msg "はい" || strContains msg "確定" ||
          strContains msg "お願い") = true)) := by
  obtain ⟨stp, data⟩ := st
  cases hstep
  have hens : ensureState store userId = store := by
    rw [ensureState, h]
    rfl
  constructor
  · intro hc
    rw [handleReservationFlow, if_pos hc, hens]
  · intro hc
    have hflow : handleReservationFlow env store userId msg =
        handleConfirmation store userId msg ⟨Step.confirmation, data⟩ := by
      rw [handleReservationFlow,
        if_neg (show ¬cancelExactKeywords.contains (strLower msg) = true by
          rw [hc]; exact Bool.false_ne_true),
        hens, h]
      rfl
    rw [hflow, handleConfirmation]
    by_cases ha : strContains msg "はい" = true ∨ strContains msg "確定" = true ∨
        strContains msg "お願い" = true
    · rw [if_pos ha]
      refine iff_of_true ⟨rfl, storeFind_del_self _ _⟩ ?_
      simp only [Bool.or_eq_true]
      tauto
    · rw [if_neg ha]
      refine iff_of_false ?_ ?_
      · intro hcomp
        exact absurd hcomp.1 (by simp [isCompletedMsg])
      · intro hb
        apply ha
        simp only [Bool.or_eq_true] at hb
        tauto

/-- Witness for C10: at `confirmation`, the message
「キャンセルでお願いします」 — which contains the cancellation keyword
キャンセル but is not exactly equal to it — completes the reservation
and deletes the state. -/
theorem claim10_exact_cancel_vs_substring_affirm_witness :
    cancelExactKeywords.contains (strLower "キャンセルでお願いします") = false ∧
    strContains "キャンセルでお願いします" "キャンセル" = true ∧
    (isCompletedMsg (handleReservationFlow (mkEnv 1)
        [("u", ⟨Step.confirmation, ⟨some "カット", some "田中", some 2, some (10, 0)⟩⟩)]
        "u" "キャンセルでお願いします").2 = true ∧
      storeFind (handleReservationFlow (mkEnv 1)
        [("u", ⟨Step.confirmation, ⟨some "カット", some "田中", some 2, some (10, 0)⟩⟩)]
        "u" "キャンセルでお願いします").1 "u" = none) :=
  ⟨by decide, by decide,
   ((claim10_exact_cancel_vs_substring_affirm (mkEnv 1)
       [("u", ⟨Step.confirmation, ⟨some "カット", some "田中", some 2, some (10, 0)⟩⟩)]
       "u" "キャンセルでお願いします"
       ⟨Step.confirmation, ⟨some "カット", some "田中", some 2, some (10, 0)⟩⟩
       (by decide) rfl).2 (by decide)).mpr (by decide)⟩

end Salon
